import Mathlib

/-!
Shallow embedding of the conversation-memory and resilient-request core of
the pdf-scholar repository: token estimation (`src/lib/memory.ts`),
conversation truncation with summarization, the retry/backoff wrapper and
retryability predicate (`src/lib/utils/retry.ts`), and the chat route's
request assembly and error handling (`src/app/api/chat` route).

Numbers: the source computes token estimates as `Math.ceil` of nonnegative
arithmetic on JS numbers; we model the arithmetic exactly over ℚ
(`1.3` as `13/10`) and the resulting counts as ℕ.  Strings are Lean
`String`s; JS `split(/\s+/)` is modelled by counting maximal whitespace
runs (a split produces one more piece than there are runs of separators).
-/

namespace PDFScholar

/-- Message roles, `'user' | 'assistant' | 'system'` in the source. -/
inductive Role where
  | user
  | assistant
  | system
deriving DecidableEq, Repr

/-- One conversation turn (`ChatMessage` in `src/types`): id, role, text
content, optional image payloads, optional page references, timestamp. -/
structure ChatMessage where
  id : String
  role : Role
  content : String
  images : Option (List String)
  pageReferences : Option (List Nat)
  timestamp : Nat
deriving DecidableEq, Repr

/-- Number of maximal whitespace runs in a character list; the flag records
whether the previous character was whitespace. -/
def wsRuns : List Char → Bool → Nat
  | [], _ => 0
  | c :: rest, inWs =>
    if c.isWhitespace then
      (if inWs then 0 else 1) + wsRuns rest true
    else
      wsRuns rest false

/-- JS `text.split(/\s+/).length`: one more piece than whitespace runs
(the empty string splits to `[""]`, length 1). -/
def jsSplitWsLen (s : String) : Nat :=
  wsRuns s.data false + 1

/-- Source `countTokens` (`src/lib/memory.ts`), fallback branch: the heuristic
estimator `ceil(max(words * 1.3, characters / 4))`, written with natural
ceiling divisions (`⌈a/b⌉ = (a + b - 1) / b`) so that it evaluates;
`countTokens_eq_rat` below proves it equal to the literal transliteration
over ℚ. -/
def countTokens (text : String) : Nat :=
  let words := jsSplitWsLen text
  let characters := text.length
  let wordBasedEstimate := (words * 13 + 9) / 10
  let charBasedEstimate := (characters + 3) / 4
  max wordBasedEstimate charBasedEstimate

/-- The literal transliteration of the source's fallback estimator over
ℚ: `Math.ceil(Math.max(words * 1.3, characters / 4))`. -/
def countTokensRat (text : String) : Nat :=
  let words : ℚ := jsSplitWsLen text
  let characters : ℚ := text.length
  let wordBasedEstimate := words * (13 / 10)
  let charBasedEstimate := characters / 4
  ⌈max wordBasedEstimate charBasedEstimate⌉₊

/-- Ceiling of a natural fraction as a natural division. -/
theorem natCeilCastDiv (a b : Nat) (hb : 0 < b) :
    ⌈(a : ℚ) / (b : ℚ)⌉₊ = (a + b - 1) / b := by
  have hb' : (0 : ℚ) < (b : ℚ) := by exact_mod_cast hb
  have key : ∀ n : Nat, ⌈(a : ℚ) / (b : ℚ)⌉₊ ≤ n ↔ (a + b - 1) / b ≤ n := by
    intro n
    rw [Nat.ceil_le, div_le_iff₀ hb', Nat.div_le_iff_le_mul_add_pred hb]
    constructor
    · intro h
      have h2 : (a : ℚ) ≤ ((b * n : Nat) : ℚ) := by push_cast; linarith
      have h3 : a ≤ b * n := by exact_mod_cast h2
      omega
    · intro h
      have h3 : a ≤ b * n := by omega
      have h2 : (a : ℚ) ≤ ((b * n : Nat) : ℚ) := by exact_mod_cast h3
      push_cast at h2
      linarith
  exact le_antisymm ((key _).mpr le_rfl) (by
    have := (key _).mp le_rfl
    omega)

/-- Ceiling commutes with `max`. -/
theorem natCeilMax (a b : ℚ) : ⌈max a b⌉₊ = max ⌈a⌉₊ ⌈b⌉₊ := by
  rcases le_total a b with h | h
  · rw [max_eq_right h, max_eq_right (Nat.ceil_mono h)]
  · rw [max_eq_left h, max_eq_left (Nat.ceil_mono h)]

/-- The executable `countTokens` agrees with the literal ℚ
transliteration of the source's estimator. -/
theorem countTokens_eq_rat (text : String) : countTokens text = countTokensRat text := by
  unfold countTokens countTokensRat
  rw [natCeilMax]
  have hw : ((jsSplitWsLen text : ℚ) * (13 / 10)) =
      ((jsSplitWsLen text * 13 : Nat) : ℚ) / ((10 : Nat) : ℚ) := by
    push_cast
    ring
  have hc : ((text.length : ℚ) / 4) = ((text.length : Nat) : ℚ) / ((4 : Nat) : ℚ) := by
    push_cast
    ring
  rw [hw, hc, natCeilCastDiv _ 10 (by norm_num), natCeilCastDiv _ 4 (by norm_num)]
  simp only []
  norm_num

/-- Source `countMessageTokens` (`src/lib/memory.ts`): content tokens, plus 1000
per attached image, plus a fixed overhead of 4. -/
def countMessageTokens (message : ChatMessage) : Nat :=
  let tokens := countTokens message.content
  let tokens := tokens + (match message.images with
    | some imgs => imgs.length * 1000
    | none => 0)
  tokens + 4

/-- Source `getTotalTokenCount` (`src/lib/memory.ts`): sum of per-message costs. -/
def getTotalTokenCount (messages : List ChatMessage) : Nat :=
  messages.foldl (fun total msg => total + countMessageTokens msg) 0

/-- Does a line match the JS regular expression `^#+\s`: one or more `#`
characters followed by a whitespace character? -/
def isHeadingLine (line : String) : Bool :=
  let cs := line.data
  let hashes := cs.takeWhile (fun c => c == '#')
  !hashes.isEmpty &&
    (match cs.drop hashes.length with
     | c :: _ => c.isWhitespace
     | [] => false)

/-- JS `h.replace(/^#+\s/, '')`: drop the leading `#` run and the single
whitespace character after it (the regex matches at most once, anchored). -/
def dropHeadingMark (line : String) : String :=
  if isHeadingLine line then
    let cs := line.data
    let hashes := cs.takeWhile (fun c => c == '#')
    String.mk (cs.drop (hashes.length + 1))
  else
    line

/-- Source `extractKeyPoints` (`src/lib/memory.ts`): keep nonblank lines, pick
markdown heading lines; if any, join the first 3 (mark dropped) with a
comma; otherwise the first 150 characters followed by an ellipsis. -/
def extractKeyPoints (content : String) : String :=
  let lines := (content.splitOn "\n").filter (fun line => line.trim != "")
  let headings := lines.filter isHeadingLine
  if headings.length > 0 then
    String.intercalate ", " ((headings.take 3).map dropHeadingMark)
  else
    content.take 150 ++ "..."

/-- The text one message contributes to the summary in the `forEach` body
of `summarizeOldMessages`: user turns yield a bullet with their first 100
characters (and a pages line when `pageReferences` is set), assistant
turns yield a bullet with their key points, system turns yield nothing. -/
def summaryContribution (msg : ChatMessage) : String :=
  match msg.role with
  | .user =>
      "- User asked about: " ++ msg.content.take 100 ++ "...\n" ++
      (match msg.pageReferences with
       | some pages =>
           "  (Pages: " ++ String.intercalate ", " (pages.map toString) ++ ")\n"
       | none => "")
  | .assistant =>
      "- Assistant explained: " ++ extractKeyPoints msg.content ++ "\n"
  | .system => ""

/-- Source `summarizeOldMessages` (`src/lib/memory.ts`): header line plus the
contributions of the first `min(3, N)` messages, accumulated in order. -/
def summarizeOldMessages (messages : List ChatMessage) : String :=
  let toSummarize := messages.take (min 3 messages.length)
  toSummarize.foldl (fun summary msg => summary ++ summaryContribution msg)
    "Previous conversation summary:\n"

/-- The synthetic summary message built inside `truncateConversation`;
`now` stands for the `Date.now()` timestamp used in its id. -/
def mkSummaryMessage (now : Nat) (messages : List ChatMessage) : ChatMessage :=
  { id := "summary-" ++ toString now
    role := .system
    content := summarizeOldMessages messages
    images := none
    pageReferences := none
    timestamp := now }

/-- The `for (let i = messages.length - 1; i >= 0; i--)` loop of
`truncateConversation`, walking the reversed list (newest first) with the
running total `cur`; it stops (returns `[]`) as soon as adding the next
message's cost would exceed `maxTokens`.  The result lists the kept
messages newest-first; the source's `unshift` makes the final list their
reverse followed by the summary message. -/
def truncWalk (maxTokens : Nat) : List ChatMessage → Nat → List ChatMessage
  | [], _ => []
  | message :: rest, cur =>
    let messageTokens := countMessageTokens message
    if cur + messageTokens > maxTokens then []
    else message :: truncWalk maxTokens rest (cur + messageTokens)

/-- Return type of `truncateConversation`. -/
structure TruncationResult where
  messages : List ChatMessage
  wasTruncated : Bool
deriving DecidableEq, Repr

/-- Source `truncateConversation` (`src/lib/memory.ts`): if the total is within
`bufferThreshold`, return the list untouched; otherwise build the summary
message, then keep messages newest-to-oldest while the running total
(seeded with the summary's own cost) stays within `maxTokens`.  The kept
messages end up in chronological order with the summary message after
them. -/
def truncateConversation (now : Nat) (messages : List ChatMessage)
    (maxTokens bufferThreshold : Nat) : TruncationResult :=
  let totalTokens := getTotalTokenCount messages
  if totalTokens ≤ bufferThreshold then
    { messages := messages, wasTruncated := false }
  else
    let summaryMessage := mkSummaryMessage now messages
    let kept := truncWalk maxTokens messages.reverse
      (countMessageTokens summaryMessage)
    { messages := kept.reverse ++ [summaryMessage], wasTruncated := true }

/-! ## Retry wrapper (`src/lib/utils/retry.ts`) -/

/-- Observable trace of one `withRetry` run: the outcome (`Except.error
none` models the unreachable final `throw lastError` with no attempt
made), the number of times the operation was invoked, the `onRetry` hook
invocations (attempt number and error, in order), and the backoff delays
slept, in order. -/
structure RetryTrace (ε α : Type) where
  result : Except (Option ε) α
  calls : Nat
  hookCalls : List (Nat × ε)
  delays : List Nat
deriving Repr

/-- The body of `withRetry`'s `for (let attempt = 1; attempt <=
maxAttempts; attempt++)` loop.  `fn attempt` is the outcome of the
operation's `attempt`-th invocation; `fuel` bounds the remaining loop
iterations (`withRetry` supplies `maxAttempts + 1`, enough to exit the
loop).  On failure at the final attempt the error is rethrown as-is;
otherwise the delay `min(initialDelay * 2^(attempt-1), maxDelay)` is
computed, the hook is invoked with `(attempt, error)`, and the loop
retries. -/
def withRetryGo (fn : Nat → Except ε α) (maxAttempts initialDelay maxDelay : Nat) :
    Nat → Nat → Option ε → RetryTrace ε α
  | _, 0, lastError => { result := .error lastError, calls := 0, hookCalls := [], delays := [] }
  | attempt, fuel + 1, lastError =>
    if attempt > maxAttempts then
      { result := .error lastError, calls := 0, hookCalls := [], delays := [] }
    else
      match fn attempt with
      | .ok a => { result := .ok a, calls := 1, hookCalls := [], delays := [] }
      | .error e =>
        if attempt = maxAttempts then
          { result := .error (some e), calls := 1, hookCalls := [], delays := [] }
        else
          let delay := min (initialDelay * 2 ^ (attempt - 1)) maxDelay
          let rest := withRetryGo fn maxAttempts initialDelay maxDelay
            (attempt + 1) fuel (some e)
          { result := rest.result
            calls := rest.calls + 1
            hookCalls := (attempt, e) :: rest.hookCalls
            delays := delay :: rest.delays }

/-- Source `withRetry` (`src/lib/utils/retry.ts`): run the loop from attempt 1.
The operation is modelled as a function from the attempt number to that
invocation's outcome; the hook and the slept delays are recorded in the
trace rather than performed. -/
def withRetry (fn : Nat → Except ε α) (maxAttempts initialDelay maxDelay : Nat) :
    RetryTrace ε α :=
  withRetryGo fn maxAttempts initialDelay maxDelay 1 (maxAttempts + 1) none

/-- The `any`-typed failure value examined by `shouldRetry`: its `name`,
optional `message` and optional numeric `status` fields. -/
structure JsError where
  name : String
  message : Option String
  status : Option Int
deriving DecidableEq, Repr

/-- Does `pat` occur as a contiguous run inside the character list? -/
def charsInclude (pat : List Char) : List Char → Bool
  | [] => pat.isEmpty
  | c :: rest => pat.isPrefixOf (c :: rest) || charsInclude pat rest

/-- JS `message?.includes(pat)`: substring test on the optional message
(`none`, JS `undefined`, yields `undefined`, which is falsy). -/
def msgIncludes (message : Option String) (pat : String) : Bool :=
  match message with
  | some s => charsInclude pat.data s.data
  | none => false

/-- JS `error.status === n` with an optional status (absent never equals). -/
def statusEq (status : Option Int) (n : Int) : Bool :=
  match status with
  | some v => v == n
  | none => false

/-- JS `error.status >= n` with an optional status (comparisons with
`undefined` are false in JS). -/
def statusGe (status : Option Int) (n : Int) : Bool :=
  match status with
  | some v => n ≤ v
  | none => false

/-- JS `error.status < n` with an optional status (false when absent). -/
def statusLt (status : Option Int) (n : Int) : Bool :=
  match status with
  | some v => v < n
  | none => false

/-- Source `shouldRetry` (`src/lib/utils/retry.ts`): retry on abort/timeout
names, on connection-failure messages, on status 503 and on 5xx statuses;
return false on 4xx statuses other than 429; otherwise return false. -/
def shouldRetry (error : JsError) : Bool :=
  if error.name == "AbortError" || error.name == "TimeoutError" then
    true
  else if msgIncludes error.message "fetch failed" ||
      msgIncludes error.message "ECONNREFUSED" then
    true
  else if statusEq error.status 503 then
    true
  else if statusGe error.status 400 && statusLt error.status 500 &&
      !statusEq error.status 429 then
    false
  else if statusGe error.status 500 then
    true
  else
    false

/-! ## Chat route (`src/app/api/chat` route) -/

/-- Default model identifier (`OLLAMA_CONFIG.model`). -/
def ollamaModel : String := "qwen2.5vl:3b"

/-- Default of `MAX_TOKEN_MEMORY`. -/
def maxTokenMemory : Nat := 32768

/-- Default of `TOKEN_BUFFER_THRESHOLD`. -/
def tokenBufferThreshold : Nat := 28672

/-- Source `getOllamaErrorMessage` (`src/lib/config/ollama.ts`). -/
def getOllamaErrorMessage (error : JsError) : String :=
  if error.name == "AbortError" || error.name == "TimeoutError" then
    "Request to Ollama timed out. The model might be loading. Please try again in a moment."
  else if msgIncludes error.message "fetch failed" ||
      msgIncludes error.message "ECONNREFUSED" then
    "Cannot connect to Ollama. Please ensure Ollama is running with: ollama serve"
  else if msgIncludes error.message "model not found" then
    "Model not found. Please pull the model with: ollama pull " ++ ollamaModel
  else
    match error.message with
    | some s => if s == "" then "Unknown error occurred while communicating with Ollama" else s
    | none => "Unknown error occurred while communicating with Ollama"

/-- One entry of the outbound request body's `messages` array. -/
structure OllamaChatMessage where
  role : String
  content : String
  images : Option (List String)
deriving DecidableEq, Repr

/-- JS `img.split(',')[1]`: the piece between the first and second comma of a
data URL (the bare base64 payload); the source leaves it `undefined` when
there is no comma, modelled as the empty string. -/
def dropDataUrlHead (img : String) : String :=
  (img.splitOn ",").getD 1 ""

/-- The fixed tutoring-persona system instruction sent on every turn. -/
def tutorSystemPrompt : String :=
  "You are an expert AI tutor helping students understand documents through visual analysis. \nYour task is to analyze the provided page image and explain its content clearly.\n\nYour explanations should be:\n1. Simple yet comprehensive - break down complex concepts into understandable parts\n2. Clear and structured - use headings, bullet points, and examples\n3. Focus on the visual content - describe what you see in the image\n4. Reference specific elements visible in the page\n5. Provide educational value - help the student understand the material\n\nAnalyze the page image provided by the student."

/-- The `ollamaMessages` array the handler builds: the fixed system
instruction plus the current user turn only.  `messages` is the session's
message list, in scope at the construction site but never consulted. -/
def buildOllamaMessages (messages : List ChatMessage) (userMessage : String)
    (images : Option (List String)) : List OllamaChatMessage :=
  [ { role := "system", content := tutorSystemPrompt, images := none },
    { role := "user", content := userMessage,
      images := images.map (fun imgs => imgs.map dropDataUrlHead) } ]

/-- Outcome of the backend interaction inside the stream body, one
constructor per control path of the handler's `try` block. -/
inductive BackendOutcome where
  /-- the tags probe's `withRetry` ultimately rejected with `err` -/
  | connectionFailure (err : JsError)
  /-- the tags probe responded but `!testResponse.ok` -/
  | tagsNotOk (status : Int) (statusText : String)
  /-- the tags listing does not contain the configured model -/
  | modelMissing
  /-- the chat request's `withRetry` ultimately rejected with `err` -/
  | chatFailure (err : JsError)
  /-- the chat request responded but `!response.ok` -/
  | chatNotOk (status : Int) (errorText statusText : String)
  /-- a 2xx response whose JSON carries an `error` field -/
  | payloadError (err : String)
  /-- a 2xx response; `content` is `responseData.message?.content` -/
  | success (content : Option String)
deriving DecidableEq, Repr

/-- Is the outcome one of the failure paths? -/
def isFailureOutcome : BackendOutcome → Bool
  | .success _ => false
  | _ => true

/-- The message of the error each failure path throws (caught by the
stream body's `catch`, which forwards `error.message` to the client). -/
def outcomeErrorMessage : BackendOutcome → String
  | .connectionFailure err => getOllamaErrorMessage err
  | .tagsNotOk status statusText =>
      "Ollama responded with " ++ toString status ++ ": " ++ statusText
  | .modelMissing =>
      "Model " ++ ollamaModel ++ " not found. Please pull it with: ollama pull " ++
        ollamaModel
  | .chatFailure err => getOllamaErrorMessage err
  | .chatNotOk status errorText statusText =>
      "Ollama error (" ++ toString status ++ "): " ++
        (if errorText == "" then statusText else errorText)
  | .payloadError err => "Ollama error: " ++ err
  | .success _ => ""

/-- One server-sent event enqueued on the response stream. -/
inductive SSEEvent where
  /-- Event `data: {content, done: true}` -/
  | message (content : String) (done : Bool)
  /-- Event `data: {error, type: 'ollama_error', details}` -/
  | errorEvent (message : String)
  /-- Event `data: [DONE]` -/
  | doneMarker
deriving DecidableEq, Repr

/-- The user `ChatMessage` the handler constructs for a turn; `now` is
`Date.now()`. -/
def mkUserMessage (now : Nat) (userMessage : String) (images : Option (List String))
    (pageNumbers : Option (List Nat)) : ChatMessage :=
  { id := "msg-" ++ toString now
    role := .user
    content := userMessage
    images := images
    pageReferences := pageNumbers
    timestamp := now }

/-- The assistant `ChatMessage` committed on success. -/
def mkAssistantMessage (now : Nat) (content : String)
    (pageNumbers : Option (List Nat)) : ChatMessage :=
  { id := "msg-" ++ toString now ++ "-assistant"
    role := .assistant
    content := content
    images := none
    pageReferences := pageNumbers
    timestamp := now }

/-- One turn of the in-memory-path `POST` handler, from user-message
construction to stream close, with the backend interaction abstracted as
`outcome`.  `stored` is the `chatSessions` entry for the request's
`chatId` before the turn (`none` for an unseen id, in which case the
handler works on a fresh empty array).  Returns the events enqueued on
the stream and the store entry after the turn.  `chatSessions.set` runs
only on the success path, where it stores the handler's (possibly
truncated) context plus the assistant message.  On failure the map is not
written: when the id already had an entry, that same array was mutated in
place by the user-message push, so the entry afterwards is the prior
messages plus the user message; when the id was unseen, the fresh array
is discarded and the store still has no entry — the user message is not
persisted. -/
def handleTurn (now : Nat) (stored : Option (List ChatMessage)) (userMessage : String)
    (images : Option (List String)) (pageNumbers : Option (List Nat))
    (outcome : BackendOutcome) : List SSEEvent × Option (List ChatMessage) :=
  let newUserMessage := mkUserMessage now userMessage images pageNumbers
  let messages := stored.getD [] ++ [newUserMessage]
  let truncationResult :=
    truncateConversation now messages maxTokenMemory tokenBufferThreshold
  let context :=
    if truncationResult.wasTruncated then truncationResult.messages else messages
  match outcome with
  | .success content =>
      let assistantContent := content.getD ""
      let assistantMsg := mkAssistantMessage now assistantContent pageNumbers
      ([.message assistantContent true, .doneMarker], some (context ++ [assistantMsg]))
  | o =>
      ([.errorEvent (outcomeErrorMessage o), .doneMarker],
       stored.map (fun prior => prior ++ [newUserMessage]))

/-! ## Helper lemmas -/

theorem getTotalTokenCount_eq_sum (l : List ChatMessage) :
    getTotalTokenCount l = (l.map countMessageTokens).sum := by
  suffices h : ∀ (l : List ChatMessage) (a : Nat),
      l.foldl (fun total msg => total + countMessageTokens msg) a =
        a + (l.map countMessageTokens).sum by
    simpa [getTotalTokenCount] using h l 0
  intro l
  induction l with
  | nil => intro a; simp
  | cons x xs ih => intro a; simp [ih, Nat.add_assoc]

theorem truncWalk_sum_le (maxTokens : Nat) :
    ∀ (l : List ChatMessage) (cur : Nat),
      ((truncWalk maxTokens l cur).map countMessageTokens).sum + cur ≤ maxTokens ∨
        truncWalk maxTokens l cur = [] := by
  intro l
  induction l with
  | nil => intro cur; right; rfl
  | cons m rest ih =>
    intro cur
    by_cases h : cur + countMessageTokens m > maxTokens
    · right; simp [truncWalk, h]
    · left
      rcases ih (cur + countMessageTokens m) with h2 | h2
      · simp only [truncWalk, h, if_false, List.map_cons, List.sum_cons]
        omega
      · simp only [truncWalk, h, if_false, h2, List.map_cons, List.map_nil,
          List.sum_cons, List.sum_nil]
        omega

theorem truncWalk_initial_segment (maxTokens : Nat) :
    ∀ (l : List ChatMessage) (cur : Nat),
      ∃ t, l = truncWalk maxTokens l cur ++ t := by
  intro l
  induction l with
  | nil => intro cur; exact ⟨[], rfl⟩
  | cons m rest ih =>
    intro cur
    by_cases h : cur + countMessageTokens m > maxTokens
    · exact ⟨m :: rest, by simp [truncWalk, h]⟩
    · obtain ⟨t, ht⟩ := ih (cur + countMessageTokens m)
      refine ⟨t, ?_⟩
      simp only [truncWalk, h, if_false, List.cons_append]
      exact congrArg (m :: ·) ht

/-! ## Claim theorems -/

/-- C10: in fallback mode `countTokens` is strictly positive on every
string (splitting on whitespace always yields at least one piece, so the
word-based estimate is at least 1.3), and `countTokens "" = 2`. -/
theorem countTokens_pos_and_empty :
    (∀ s : String, 0 < countTokens s) ∧ countTokens "" = 2 := by
  constructor
  · intro s
    apply lt_max_of_lt_left
    apply Nat.div_pos
    · unfold jsSplitWsLen
      omega
    · norm_num
  · decide

/-- C5: when the total token count is within `bufferThreshold`,
`truncateConversation` returns the untouched list with
`wasTruncated = false`; no summary message is created. -/
theorem truncate_under_budget (now : Nat) (L : List ChatMessage)
    (maxTokens bufferThreshold : Nat)
    (h : getTotalTokenCount L ≤ bufferThreshold) :
    truncateConversation now L maxTokens bufferThreshold = ⟨L, false⟩ := by
  rw [truncateConversation]
  simp [h]

/-- Witness for C5 at the empty list. -/
theorem truncate_under_budget_witness :
    getTotalTokenCount ([] : List ChatMessage) ≤ 0 ∧
      truncateConversation 0 [] 5 0 = ⟨[], false⟩ :=
  ⟨by decide, truncate_under_budget 0 [] 5 0 (by decide)⟩

/-- C1: whenever truncation triggers (`totalTokens L > bufferThreshold`),
the returned list's token sum excluding the synthetic summary message (its
final element) never exceeds `maxTokens`. -/
theorem truncate_kept_sum_le_maxTokens (now : Nat) (L : List ChatMessage)
    (maxTokens bufferThreshold : Nat)
    (h : bufferThreshold < getTotalTokenCount L) :
    getTotalTokenCount
        ((truncateConversation now L maxTokens bufferThreshold).messages.dropLast) ≤
      maxTokens := by
  have hnot : ¬ getTotalTokenCount L ≤ bufferThreshold := not_le.mpr h
  rw [truncateConversation]
  simp only [hnot, if_false]
  rw [List.dropLast_concat]
  rcases truncWalk_sum_le maxTokens L.reverse
      (countMessageTokens (mkSummaryMessage now L)) with h2 | h2
  · rw [getTotalTokenCount_eq_sum, List.map_reverse, List.sum_reverse]
    omega
  · rw [h2]
    simp [getTotalTokenCount]

/-- Witness for C1: a one-message list over a zero threshold. -/
theorem truncate_kept_sum_le_maxTokens_witness :
    0 < getTotalTokenCount [⟨"m1", Role.user, "hi", none, none, 0⟩] ∧
      getTotalTokenCount
          ((truncateConversation 0 [⟨"m1", Role.user, "hi", none, none, 0⟩] 6 0).messages.dropLast) ≤
        6 :=
  ⟨by decide,
   truncate_kept_sum_le_maxTokens 0 [⟨"m1", Role.user, "hi", none, none, 0⟩] 6 0
     (by decide)⟩

/-- C9: `truncateConversation` is a pure function of its input (the
embedding is pure because the source never writes to the `messages` array
it receives — it only reads it and builds a fresh `truncatedMessages`
array): either the call returns the input list itself untruncated, or it
returns a freshly built list whose non-summary elements are exactly a
suffix of the input in original order, followed by the synthetic summary
message. -/
theorem truncate_result_is_input_suffix (now : Nat) (L : List ChatMessage)
    (maxTokens bufferThreshold : Nat) :
    truncateConversation now L maxTokens bufferThreshold = ⟨L, false⟩ ∨
      ∃ k, truncateConversation now L maxTokens bufferThreshold =
        ⟨L.drop k ++ [mkSummaryMessage now L], true⟩ := by
  by_cases h : getTotalTokenCount L ≤ bufferThreshold
  · left
    rw [truncateConversation]
    simp [h]
  · right
    obtain ⟨t, ht⟩ := truncWalk_initial_segment maxTokens L.reverse
      (countMessageTokens (mkSummaryMessage now L))
    refine ⟨t.reverse.length, ?_⟩
    rw [truncateConversation]
    simp only [h, if_false]
    have hL : L = t.reverse ++
        (truncWalk maxTokens L.reverse
          (countMessageTokens (mkSummaryMessage now L))).reverse := by
      have h2 := congrArg List.reverse ht
      simpa [List.reverse_append] using h2
    have hdrop : L.drop t.reverse.length =
        (truncWalk maxTokens L.reverse
          (countMessageTokens (mkSummaryMessage now L))).reverse := by
      conv_lhs => rw [hL]
      rw [List.drop_left]
    rw [hdrop]

/-- C4 as stated fails on the code: a single user message `"hi"` costs 6
tokens, the total (6) exceeds `bufferThreshold = 0`, and `maxTokens = 6`
is at least the newest message's own cost, yet the truncated list does not
contain that message — the walk's budget is seeded with the summary
message's cost. -/
theorem truncate_drops_affordable_newest :
    0 < getTotalTokenCount [⟨"m1", Role.user, "hi", none, none, 0⟩] ∧
      countMessageTokens ⟨"m1", Role.user, "hi", none, none, 0⟩ ≤ 6 ∧
      (⟨"m1", Role.user, "hi", none, none, 0⟩ : ChatMessage) ∉
        (truncateConversation 0 [⟨"m1", Role.user, "hi", none, none, 0⟩] 6 0).messages := by
  set_option maxRecDepth 10000 in decide

/-- C4 amended: when truncation triggers on a nonempty list and
`maxTokens` is at least the summary message's cost *plus* the newest
message's own cost, the truncated list contains the newest message. -/
theorem truncate_keeps_newest (now : Nat) (L : List ChatMessage)
    (maxTokens bufferThreshold : Nat) (hne : L ≠ [])
    (hbudget : bufferThreshold < getTotalTokenCount L)
    (hmax : countMessageTokens (mkSummaryMessage now L) +
      countMessageTokens (L.getLast hne) ≤ maxTokens) :
    L.getLast hne ∈ (truncateConversation now L maxTokens bufferThreshold).messages := by
  have hnot : ¬ getTotalTokenCount L ≤ bufferThreshold := not_le.mpr hbudget
  rw [truncateConversation]
  simp only [hnot, if_false]
  have hrev : L.reverse = L.getLast hne :: L.dropLast.reverse := by
    conv_lhs => rw [← List.dropLast_concat_getLast hne]
    simp
  rw [hrev, truncWalk]
  have hcond : ¬ (countMessageTokens (mkSummaryMessage now L) +
      countMessageTokens (L.getLast hne) > maxTokens) := not_lt.mpr hmax
  simp only [hcond, if_false]
  simp

/-- Witness for C4's amended theorem: with `maxTokens = 25` (summary cost
19 plus message cost 6) the newest message is kept. -/
theorem truncate_keeps_newest_witness :
    ([⟨"m1", Role.user, "hi", none, none, 0⟩] : List ChatMessage) ≠ [] ∧
      0 < getTotalTokenCount [⟨"m1", Role.user, "hi", none, none, 0⟩] ∧
      countMessageTokens
          (mkSummaryMessage 0 [⟨"m1", Role.user, "hi", none, none, 0⟩]) +
        countMessageTokens
          (([⟨"m1", Role.user, "hi", none, none, 0⟩] :
            List ChatMessage).getLast (by decide)) ≤ 25 ∧
      (([⟨"m1", Role.user, "hi", none, none, 0⟩] :
          List ChatMessage).getLast (by decide)) ∈
        (truncateConversation 0 [⟨"m1", Role.user, "hi", none, none, 0⟩] 25 0).messages :=
  ⟨by decide, by decide, by set_option maxRecDepth 10000 in decide,
   truncate_keeps_newest 0 [⟨"m1", Role.user, "hi", none, none, 0⟩] 25 0
     (by decide) (by decide) (by set_option maxRecDepth 10000 in decide)⟩

/-- Folding append distributes over the seed. -/
theorem string_foldl_append_seed (l : List String) :
    ∀ a : String, l.foldl (· ++ ·) a = a ++ l.foldl (· ++ ·) "" := by
  induction l with
  | nil => intro a; rw [List.foldl_nil, List.foldl_nil, String.append_empty]
  | cons x xs ih =>
    intro a
    rw [List.foldl_cons, List.foldl_cons, ih ("" ++ x), ih (a ++ x),
      String.empty_append, String.append_assoc]

/-- Unfolding `String.join` on a cons cell. -/
theorem string_join_cons (s : String) (l : List String) :
    String.join (s :: l) = s ++ String.join l := by
  show (s :: l).foldl (· ++ ·) "" = s ++ l.foldl (· ++ ·) ""
  rw [List.foldl_cons, String.empty_append, string_foldl_append_seed]

/-- Accumulating appends with `foldl` equals appending the join of the
mapped pieces. -/
theorem foldl_append_eq_join (f : ChatMessage → String) (l : List ChatMessage) :
    ∀ init : String,
      l.foldl (fun acc m => acc ++ f m) init = init ++ String.join (l.map f) := by
  induction l with
  | nil => intro init; simp [String.join, String.append_empty]
  | cons x xs ih =>
    intro init
    rw [List.foldl_cons, List.map_cons, ih, string_join_cons, String.append_assoc]

/-- The per-message bullet the specification prescribes: user turns
contribute a bullet with the first 100 characters of their content plus
their page references when present; assistant turns contribute a bullet
with up to 3 extracted markdown headings, or the first 150 characters when
there are none; system turns contribute nothing. -/
def specSummaryLine (msg : ChatMessage) : String :=
  match msg.role with
  | .user =>
      "- User asked about: " ++ msg.content.take 100 ++ "...\n" ++
        (match msg.pageReferences with
         | some pages =>
             "  (Pages: " ++ String.intercalate ", " (pages.map toString) ++ ")\n"
         | none => "")
  | .assistant =>
      "- Assistant explained: " ++
        (let lines := (msg.content.splitOn "\n").filter (fun line => line.trim != "")
         let headings := lines.filter isHeadingLine
         if headings.length > 0 then
           String.intercalate ", " ((headings.take 3).map dropHeadingMark)
         else
           msg.content.take 150 ++ "...") ++ "\n"
  | .system => ""

/-- The summary content the specification prescribes: the header followed
by the bullets of exactly the first `min(3, N)` messages, in order. -/
def specSummaryContent (messages : List ChatMessage) : String :=
  "Previous conversation summary:\n" ++
    String.join ((messages.take (min 3 messages.length)).map specSummaryLine)

/-- C8: when truncation triggers, the synthetic summary message is the
final element of the returned list, has role `system`, and its content is
built from exactly the first `min(3, N)` messages in order, each user turn
contributing a bullet with its first 100 characters (plus page references
when present) and each assistant turn a bullet with up to 3 extracted
headings or its first 150 characters. -/
theorem truncate_summary_content (now : Nat) (L : List ChatMessage)
    (maxTokens bufferThreshold : Nat)
    (h : bufferThreshold < getTotalTokenCount L) :
    (truncateConversation now L maxTokens bufferThreshold).messages.getLast? =
        some (mkSummaryMessage now L) ∧
      (mkSummaryMessage now L).role = Role.system ∧
      (mkSummaryMessage now L).content = specSummaryContent L := by
  have hnot : ¬ getTotalTokenCount L ≤ bufferThreshold := not_le.mpr h
  refine ⟨?_, rfl, ?_⟩
  · rw [truncateConversation]
    simp only [hnot, if_false]
    exact List.getLast?_concat _
  · show summarizeOldMessages L = specSummaryContent L
    rw [summarizeOldMessages, specSummaryContent, foldl_append_eq_join]
    congr 1

/-- Witness for C8 on a concrete two-message conversation. -/
theorem truncate_summary_content_witness :
    0 < getTotalTokenCount
        [⟨"m1", Role.user, "hi", none, some [2, 5], 0⟩,
         ⟨"m2", Role.assistant, "# Intro\nBody", none, none, 0⟩] ∧
      (truncateConversation 0
          [⟨"m1", Role.user, "hi", none, some [2, 5], 0⟩,
           ⟨"m2", Role.assistant, "# Intro\nBody", none, none, 0⟩] 6 0).messages.getLast? =
          some (mkSummaryMessage 0
            [⟨"m1", Role.user, "hi", none, some [2, 5], 0⟩,
             ⟨"m2", Role.assistant, "# Intro\nBody", none, none, 0⟩]) ∧
      (mkSummaryMessage 0
          [⟨"m1", Role.user, "hi", none, some [2, 5], 0⟩,
           ⟨"m2", Role.assistant, "# Intro\nBody", none, none, 0⟩]).role = Role.system ∧
      (mkSummaryMessage 0
          [⟨"m1", Role.user, "hi", none, some [2, 5], 0⟩,
           ⟨"m2", Role.assistant, "# Intro\nBody", none, none, 0⟩]).content =
        specSummaryContent
          [⟨"m1", Role.user, "hi", none, some [2, 5], 0⟩,
           ⟨"m2", Role.assistant, "# Intro\nBody", none, none, 0⟩] := by
  refine ⟨by set_option maxRecDepth 10000 in decide, ?_⟩
  exact truncate_summary_content 0
    [⟨"m1", Role.user, "hi", none, some [2, 5], 0⟩,
     ⟨"m2", Role.assistant, "# Intro\nBody", none, none, 0⟩] 6 0
    (by set_option maxRecDepth 10000 in decide)

/-- Shifting a map over `List.range`: peeling the first index. -/
theorem range_shift_map {β : Type} (g : Nat → β) (n a : Nat) :
    (List.range (n + 1)).map (fun j => g (a + j)) =
      g a :: (List.range n).map (fun j => g (a + 1 + j)) := by
  rw [List.range_succ_eq_map, List.map_cons, List.map_map]
  refine congrArg₂ _ (by simp) ?_
  apply List.map_congr_left
  intro j _
  simp only [Function.comp_apply, Nat.succ_eq_add_one]
  congr 1
  omega

/-- Trace of the retry loop from attempt `a` on, for an operation that
fails on every invocation: it makes the remaining `k + 1 - a` calls,
invokes the hook at attempts `a, …, k - 1`, sleeps the exponential
backoff delays, and propagates the final attempt's error unchanged. -/
theorem withRetryGo_always_fails {ε α : Type} (fn : Nat → Except ε α) (e : Nat → ε)
    (k d m : Nat) (hfail : ∀ i, fn i = .error (e i)) :
    ∀ (fuel a : Nat) (le : Option ε), 1 ≤ a → a ≤ k → k - a < fuel →
      withRetryGo fn k d m a fuel le =
        { result := .error (some (e k))
          calls := k + 1 - a
          hookCalls := (List.range (k - a)).map (fun j => (a + j, e (a + j)))
          delays := (List.range (k - a)).map (fun j => min (d * 2 ^ (a + j - 1)) m) } := by
  intro fuel
  induction fuel with
  | zero =>
    intro a le h1 h2 h3
    omega
  | succ fuel ih =>
    intro a le h1 h2 h3
    have hnotgt : ¬ a > k := not_lt.mpr h2
    rw [withRetryGo, if_neg hnotgt, hfail a]
    by_cases hak : a = k
    · subst hak
      have hc : a + 1 - a = 1 := by omega
      simp [hc, Nat.sub_self]
    · have hlt : a < k := lt_of_le_of_ne h2 hak
      simp only [if_neg hak]
      rw [ih (a + 1) (some (e a)) (by omega) (by omega) (by omega)]
      have hsub : k - a = (k - (a + 1)) + 1 := by omega
      have hhook : (List.range (k - a)).map (fun j => (a + j, e (a + j))) =
          (a, e a) :: (List.range (k - (a + 1))).map
            (fun j => (a + 1 + j, e (a + 1 + j))) := by
        rw [hsub, range_shift_map (fun i => (i, e i)) (k - (a + 1)) a]
      have hdelay : (List.range (k - a)).map (fun j => min (d * 2 ^ (a + j - 1)) m) =
          min (d * 2 ^ (a - 1)) m :: (List.range (k - (a + 1))).map
            (fun j => min (d * 2 ^ (a + 1 + j - 1)) m) := by
        rw [hsub, range_shift_map (fun i => min (d * 2 ^ (i - 1)) m) (k - (a + 1)) a]
      rw [hhook, hdelay]
      have hc : (k + 1 - (a + 1)) + 1 = k + 1 - a := by omega
      simp [hc]
      omega

/-- C2: for a policy with `maxAttempts = k ≥ 1` and an operation failing
on every invocation, `withRetry` invokes the operation exactly `k` times,
the hook exactly `k - 1` times (at attempts `1, …, k-1` with that
attempt's error), sleeps `min(initialDelay · 2^(i-1), maxDelay)` before
the retry following attempt `i`, and propagates the final attempt's error
as-is. -/
theorem withRetry_always_fails {ε α : Type} (fn : Nat → Except ε α) (e : Nat → ε)
    (k d m : Nat) (hk : 1 ≤ k) (hfail : ∀ i, fn i = .error (e i)) :
    withRetry fn k d m =
      { result := .error (some (e k))
        calls := k
        hookCalls := (List.range (k - 1)).map (fun i => (i + 1, e (i + 1)))
        delays := (List.range (k - 1)).map (fun i => min (d * 2 ^ i) m) } := by
  rw [withRetry,
    withRetryGo_always_fails fn e k d m hfail (k + 1) 1 none le_rfl hk (by omega)]
  have hc : k + 1 - 1 = k := by omega
  have hhook : (List.range (k - 1)).map (fun j => (1 + j, e (1 + j))) =
      (List.range (k - 1)).map (fun i => (i + 1, e (i + 1))) := by
    apply List.map_congr_left
    intro j _
    have h1 : 1 + j = j + 1 := by omega
    rw [h1]
  have hdelay : (List.range (k - 1)).map (fun j => min (d * 2 ^ (1 + j - 1)) m) =
      (List.range (k - 1)).map (fun i => min (d * 2 ^ i) m) := by
    apply List.map_congr_left
    intro j _
    have h1 : 1 + j - 1 = j := by omega
    rw [h1]
  rw [hc, hhook, hdelay]

/-- Witness for C2 at `k = 2`, `initialDelay = 100`, `maxDelay = 1000`,
with the operation failing with error `i` at attempt `i`. -/
theorem withRetry_always_fails_witness :
    (1 : Nat) ≤ 2 ∧
      (∀ i : Nat, (Except.error i : Except Nat Nat) = Except.error i) ∧
      withRetry (fun i => (Except.error i : Except Nat Nat)) 2 100 1000 =
        { result := .error (some 2)
          calls := 2
          hookCalls := [(1, 1)]
          delays := [100] } := by
  refine ⟨by decide, fun i => rfl, ?_⟩
  rw [withRetry_always_fails (fun i => (Except.error i : Except Nat Nat))
    (fun i => i) 2 100 1000 (by decide) (fun i => rfl)]
  rfl

/-- C3: the claim fails on the code: a failure whose `status` is 429 (and
whose name and message match none of the other tests) is NOT retried —
`shouldRetry` falls through the 4xx guard (which excludes 429) and the
`>= 500` test to the final `return false`, contradicting both the claim
and the source's own comment that 429 is excepted from the no-retry
client-error range. -/
theorem shouldRetry_rate_limit_false :
    shouldRetry ⟨"Error", some "Too Many Requests", some 429⟩ = false := by
  decide

/-- C7: the outbound request is exactly two messages — the fixed tutoring
persona as the system instruction and the current user turn (text plus
optional images) — independent of the session's message list; no prior
turn and no summary message is included. -/
theorem outbound_request_two_messages (messages messagesOther : List ChatMessage)
    (userMessage : String) (images : Option (List String)) :
    buildOllamaMessages messages userMessage images =
        [⟨"system", tutorSystemPrompt, none⟩,
         ⟨"user", userMessage, images.map (fun imgs => imgs.map dropDataUrlHead)⟩] ∧
      buildOllamaMessages messages userMessage images =
        buildOllamaMessages messagesOther userMessage images ∧
      (buildOllamaMessages messages userMessage images).length = 2 :=
  ⟨rfl, rfl, rfl⟩

/-- C6 as stated fails on the code: `chatSessions.set` runs only on the
success path, so for a previously-unseen chatId a failed turn leaves no
session entry at all — the in-memory session does not contain the user
message. -/
theorem failed_turn_new_session_dropped :
    isFailureOutcome BackendOutcome.modelMissing = true ∧
      (handleTurn 0 none "q" none none BackendOutcome.modelMissing).2 = none ∧
      (handleTurn 0 none "q" none none BackendOutcome.modelMissing).2 ≠
        some [mkUserMessage 0 "q" none none] :=
  ⟨rfl, rfl, fun h => Option.noConfusion h⟩

/-- C6 amended: on every backend failure path the handler enqueues
exactly one structured error event followed by the stream-completion
marker, and no assistant message is committed: a pre-existing store entry
afterwards holds the prior messages plus only the user message, while an
unseen chatId gets no store entry at all (the user message is not
persisted). -/
theorem failed_turn_events_and_store (now : Nat) (stored : Option (List ChatMessage))
    (userMessage : String) (images : Option (List String))
    (pageNumbers : Option (List Nat)) (outcome : BackendOutcome)
    (h : isFailureOutcome outcome = true) :
    handleTurn now stored userMessage images pageNumbers outcome =
      ([SSEEvent.errorEvent (outcomeErrorMessage outcome), SSEEvent.doneMarker],
       stored.map (fun prior =>
         prior ++ [mkUserMessage now userMessage images pageNumbers])) := by
  cases outcome with
  | success c => simp [isFailureOutcome] at h
  | connectionFailure err => rfl
  | tagsNotOk status statusText => rfl
  | modelMissing => rfl
  | chatFailure err => rfl
  | chatNotOk status errorText statusText => rfl
  | payloadError err => rfl

/-- Witness for C6's amended theorem at the missing-model failure path,
with a pre-existing (empty) session entry. -/
theorem failed_turn_events_and_store_witness :
    isFailureOutcome BackendOutcome.modelMissing = true ∧
      handleTurn 0 (some []) "q" none none BackendOutcome.modelMissing =
        ([SSEEvent.errorEvent (outcomeErrorMessage BackendOutcome.modelMissing),
          SSEEvent.doneMarker],
         (some [] : Option (List ChatMessage)).map
           (fun prior => prior ++ [mkUserMessage 0 "q" none none])) :=
  ⟨rfl,
   failed_turn_events_and_store 0 (some []) "q" none none BackendOutcome.modelMissing rfl⟩

end PDFScholar
